import Mathlib

/-!
A verification development for the `timeSeriesCompressor` repository
(package `pkg/compressor`, file `compressor.go`).

Modelling conventions (shallow embedding):

* Decoded JSON is the inductive `TSC.Json` (null / bool / number / string /
  array / object).  `gjson.ParseBytes` never fails, so the engine is modelled
  directly on the decoded value; byte-level parsing and `json.Marshal`
  serialization are abstracted away (no claim under verification concerns the
  byte syntax itself).
* JSON numbers and Go `float64` values are modelled as exact rationals (`ℚ`),
  and Go `int64` arithmetic as unbounded `Int` with `Int.tdiv` for Go's
  truncating (toward-zero) integer division.  Inputs are assumed within the
  `int64` range where the two agree; wrap-around overflow is not modelled.
* `gjson.Result.Get` on a flat object is field lookup (first match); an absent
  field yields `none`.  `Result.Int()` is 0 on null/false/absent values, 1 on
  `true`, and truncation toward zero on numbers; numeric-string parsing is
  conservatively modelled as 0 (no claim exercises string-typed numbers).
  `Result.String()` renders scalars exactly as gjson does for integral
  numbers; the raw-text rendering of nested arrays/objects is abstracted by a
  placeholder (no claim exercises non-scalar tag values).
* Go maps (`groups`, `group.Tags`, the output object) are modelled as
  association lists: insertion order is kept as a determinization of Go's
  unspecified iteration order, and a map write overwrites the entry with the
  same key.  The output object is kept as its ordered write sequence, and map
  lookup (`objLookup`) returns the value of the last write for a key, exactly
  the final content of the Go map.
* `CompressBatch` runs one goroutine per item under a semaphore, but each
  result slot is written only from its own index, so its observable value is
  the index-aligned map modelled by `compressBatch`; the scheduling itself is
  not modelled.
-/

namespace TSC

/-- Decoded JSON value (the shape `gjson` exposes to the compressor). -/
inductive Json where
  | null : Json
  | bool (b : Bool) : Json
  | num (q : ℚ) : Json
  | str (s : String) : Json
  | arr (xs : List Json) : Json
  | obj (fields : List (String × Json)) : Json

/-- First-match field lookup in a decoded JSON object (gjson `Get` on a flat key). -/
def lookupField : List (String × Json) → String → Option Json
  | [], _ => none
  | p :: rest, k => if p.1 = k then some p.2 else lookupField rest k

/-- `gjson.Result.Get(field)` on a record: `none` when the field is absent. -/
def Json.get : Json → String → Option Json
  | Json.obj fs, k => lookupField fs k
  | _, _ => none

/-- Truncation of a rational toward zero (Go `int64(float64)` conversion). -/
def ratTrunc (q : ℚ) : Int := Int.tdiv q.num (Int.ofNat q.den)

/-- `gjson.Result.Int()`: 1 on `true`, truncation on numbers, 0 otherwise. -/
def Json.toInt : Json → Int
  | Json.bool true => 1
  | Json.num q => ratTrunc q
  | _ => 0

/-- `gjson.Result.Float()`: 1 on `true`, the number itself, 0 otherwise. -/
def Json.toNum : Json → ℚ
  | Json.bool true => 1
  | Json.num q => q
  | _ => 0

/-- Decimal rendering of a rational; agrees with gjson's rendering on integral numbers. -/
def ratRender (q : ℚ) : String :=
  if q.den = 1 then toString q.num else toString q.num ++ "/" ++ toString q.den

/-- `gjson.Result.String()` on scalar values; nested raw text is abstracted. -/
def Json.toKeyString : Json → String
  | Json.null => ""
  | Json.bool true => "true"
  | Json.bool false => "false"
  | Json.num q => ratRender q
  | Json.str s => s
  | Json.arr _ => "[raw]"
  | Json.obj _ => "[raw]"

/-- `gjson.Result.IsObject()`. -/
def Json.isObject : Json → Bool
  | Json.obj _ => true
  | _ => false

/-- `gjson.Result.IsArray()`. -/
def Json.isArray : Json → Bool
  | Json.arr _ => true
  | _ => false

/-- The elements of a top-level JSON array (what `result.ForEach` iterates). -/
def Json.items : Json → List Json
  | Json.arr xs => xs
  | _ => []

/-- The compressor `Config`; `TimeWindow` is a `time.Duration` in nanoseconds. -/
structure Config where
  TimestampField : String
  ValueFields : List String
  GroupByFields : List String
  UniqueFields : List String
  AggregationMethod : String
  TimeWindow : Int
  Workers : Int

/-- `DefaultConfig()` from the source (`GroupByFields`/`UniqueFields` are nil). -/
def defaultConfig : Config :=
  { TimestampField := "timestamp", ValueFields := ["value"], GroupByFields := [],
    UniqueFields := [], AggregationMethod := "sum", TimeWindow := 60000000000,
    Workers := 4 }

/-- The defaulting performed by `NewCompressor` on a non-nil config: each
zero-valued field is replaced by its default (`time.Minute` = 6e10 ns).  The
Go code performs the five replacements sequentially; since every test reads a
field that no other replacement writes, the simultaneous record update below
is the same function. -/
def resolveConfig (c : Config) : Config :=
  { c with
    TimestampField := if c.TimestampField = "" then "timestamp" else c.TimestampField,
    ValueFields := if c.ValueFields = [] then ["value"] else c.ValueFields,
    AggregationMethod := if c.AggregationMethod = "" then "sum" else c.AggregationMethod,
    TimeWindow := if c.TimeWindow = 0 then 60000000000 else c.TimeWindow,
    Workers := if c.Workers ≤ 0 then 4 else c.Workers }

/-- `NewCompressor`: a nil config becomes `DefaultConfig()`, otherwise defaulting. -/
def newCompressor : Option Config → Config
  | none => defaultConfig
  | some c => resolveConfig c

/-- The timestamp read for a record: `value.Get(cfg.TimestampField).Int()`. -/
def tsOf (cfg : Config) (v : Json) : Int :=
  match Json.get v cfg.TimestampField with
  | some jv => Json.toInt jv
  | none => 0

/-- `windowSec`: `int64(TimeWindow.Seconds())` with the zero fallback to 60. -/
def windowSecOf (cfg : Config) : Int :=
  if Int.tdiv cfg.TimeWindow 1000000000 = 0 then 60
  else Int.tdiv cfg.TimeWindow 1000000000

/-- `window := (timestamp / windowSec) * windowSec` (Go truncating division). -/
def windowOf (cfg : Config) (t : Int) : Int :=
  Int.tdiv t (windowSecOf cfg) * windowSecOf cfg

/-- One key segment: `";%s%s:%s"` for a present field, nothing for an absent one.
`mark` is `""` for group-by fields and `"unique_"` for unique fields. -/
def keySeg (v : Json) (mark f : String) : String :=
  match Json.get v f with
  | some val => ";" ++ mark ++ f ++ ":" ++ Json.toKeyString val
  | none => ""

/-- The `groupKey` string: `"window:%d"` then the group-by segments then the
unique-field segments, appended in configuration order. -/
def groupKey (cfg : Config) (window : Int) (v : Json) : String :=
  (cfg.UniqueFields).foldl (fun acc f => acc ++ keySeg v ("unique_") f)
    ((cfg.GroupByFields).foldl (fun acc f => acc ++ keySeg v ("") f)
      ("window:" ++ toString window))

/-- The accumulator `Group` from the source. -/
structure Group where
  Window : Int
  Tags : List (String × String)
  Values : List ℚ
  Count : Nat
  FirstTime : Int
  LastTime : Int

/-- A Go map write `m[k] = x` on a string-valued tag map. -/
def insertTag (m : List (String × String)) (k x : String) : List (String × String) :=
  if m.any (fun p => p.1 = k) then m.map (fun p => if p.1 = k then (k, x) else p)
  else m ++ [(k, x)]

/-- Tag capture on group creation: present group-by then unique field values. -/
def captureTags (cfg : Config) (v : Json) : List (String × String) :=
  (cfg.UniqueFields).foldl
    (fun m f => match Json.get v f with
      | some val => insertTag m f (Json.toKeyString val)
      | none => m)
    ((cfg.GroupByFields).foldl
      (fun m f => match Json.get v f with
        | some val => insertTag m f (Json.toKeyString val)
        | none => m)
      [])

/-- The freshly created group (before the shared update statements run). -/
def newGroup (cfg : Config) (window t : Int) (v : Json) : Group :=
  { Window := window, Tags := captureTags cfg v, Values := [], Count := 0,
    FirstTime := t, LastTime := t }

/-- The update statements applied to the found-or-created group: min/max of the
first/last timestamps, append of every present configured value field, and the
count increment. -/
def updateGroup (cfg : Config) (t : Int) (v : Json) (g : Group) : Group :=
  { g with
    FirstTime := if t < g.FirstTime then t else g.FirstTime,
    LastTime := if g.LastTime < t then t else g.LastTime,
    Values := g.Values ++ (cfg.ValueFields).filterMap (fun f => (Json.get v f).map Json.toNum),
    Count := g.Count + 1 }

/-- Go map read `groups[groupKey]` on the association-list model. -/
def lookupGroup : List (String × Group) → String → Option Group
  | [], _ => none
  | p :: rest, k => if p.1 = k then some p.2 else lookupGroup rest k

/-- Go map write for an existing key (in-place mutation of `*Group`). -/
def updateAt (gs : List (String × Group)) (k : String) (g : Group) : List (String × Group) :=
  gs.map (fun p => if p.1 = k then (k, g) else p)

/-- The body of the `ForEach` callback for one array element: skip non-objects,
skip zero timestamps, otherwise find or create the group for the record's key
and run the shared update statements on it. -/
def processRecord (cfg : Config) (gs : List (String × Group)) (v : Json) :
    List (String × Group) :=
  if Json.isObject v = false then gs
  else if tsOf cfg v = 0 then gs
  else
    match lookupGroup gs (groupKey cfg (windowOf cfg (tsOf cfg v)) v) with
    | some g =>
        updateAt gs (groupKey cfg (windowOf cfg (tsOf cfg v)) v)
          (updateGroup cfg (tsOf cfg v) v g)
    | none =>
        gs ++ [(groupKey cfg (windowOf cfg (tsOf cfg v)) v,
          updateGroup cfg (tsOf cfg v) v
            (newGroup cfg (windowOf cfg (tsOf cfg v)) (tsOf cfg v) v))]

/-- Sequential float sum `sum := 0.0; for _, v := range values { sum += v }`. -/
def sumGo (values : List ℚ) : ℚ := values.foldl (fun s v => s + v) 0

/-- The `aggregate` method: 0 on the empty sequence, else the switch on the
configured method name with `sum` as the default branch. -/
def aggregate (method : String) (values : List ℚ) : ℚ :=
  match values with
  | [] => 0
  | v0 :: rest =>
    if method = "sum" then sumGo (v0 :: rest)
    else if method = "avg" ∨ method = "mean" then
      sumGo (v0 :: rest) / (((v0 :: rest).length : ℚ))
    else if method = "min" then rest.foldl (fun m v => if v < m then v else m) v0
    else if method = "max" then rest.foldl (fun m v => if m < v then v else m) v0
    else if method = "count" then (((v0 :: rest).length : ℚ))
    else if method = "first" then v0
    else if method = "last" then (v0 :: rest).getLast (List.cons_ne_nil v0 rest)
    else sumGo (v0 :: rest)

/-- The emitted timestamp for a group: the switch on the aggregation method. -/
def emittedTimestamp (cfg : Config) (g : Group) : Int :=
  if cfg.AggregationMethod = "first" then g.FirstTime
  else if cfg.AggregationMethod = "last" then g.LastTime
  else Int.tdiv (g.FirstTime + g.LastTime) 2

/-- The name the aggregate is written under: the sole configured value field
when exactly one is configured, else the literal `"value"`. -/
def emittedValueName (cfg : Config) : String :=
  match cfg.ValueFields with
  | [f] => f
  | _ => "value"

/-- The ordered write sequence that builds one output object: the timestamp
write, the aggregate write, then one write per captured tag. -/
def buildObj (cfg : Config) (g : Group) : List (String × Json) :=
  [(cfg.TimestampField, Json.num ((emittedTimestamp cfg g : Int) : ℚ)),
   (emittedValueName cfg, Json.num (aggregate cfg.AggregationMethod g.Values))]
  ++ g.Tags.map (fun p => (p.1, Json.str p.2))

/-- Reading a key from the built Go map: the value of the last write wins. -/
def objLookup (ws : List (String × Json)) (k : String) : Option Json :=
  ((ws.filter (fun p => p.1 = k)).getLast?).map (fun p => p.2)

/-- `CompressJSON` on the decoded input: error unless the top level is an
array, else the single sequential scan followed by per-group emission. -/
def compressJSON (cfg : Config) (j : Json) :
    Except String (List (List (String × Json))) :=
  if Json.isArray j then
    Except.ok (((Json.items j).foldl (processRecord cfg) []).map (fun p => buildObj cfg p.2))
  else Except.error ("expected JSON array")

/-- `CompressBatch`: every result slot is written only from its own index, so
the observable result is the index-aligned sequence of per-item outcomes
(`none` for an item whose `CompressJSON` failed, which leaves the nil slot). -/
def compressBatch (cfg : Config) (batches : List Json) :
    List (Option (List (List (String × Json)))) :=
  batches.map (fun b => (compressJSON cfg b).toOption)

/-- The spec's GroupKey identity: window boundary plus the ordered tuples of
present group-by and unique field string values (presence included). -/
def fieldView (v : Json) (fs : List String) : List (Option String) :=
  fs.map (fun f => (Json.get v f).map Json.toKeyString)

/-- The full spec-level key tuple of a record. -/
def groupTuple (cfg : Config) (w : Int) (v : Json) :
    Int × List (Option String) × List (Option String) :=
  (w, fieldView v cfg.GroupByFields, fieldView v cfg.UniqueFields)

/-! ### Concrete fixtures used by the claim-level theorems -/

/-- A plain resolved config: `ts` timestamp, one value field, `sum`, 60 s window. -/
def cfgPlain : Config :=
  { TimestampField := "ts", ValueFields := ["value"], GroupByFields := [],
    UniqueFields := [], AggregationMethod := "sum", TimeWindow := 60000000000,
    Workers := 4 }

/-- The spec's §8 example config: value field `val`, method `sum`, 60 s window. -/
def cfgExample : Config :=
  { TimestampField := "ts", ValueFields := ["val"], GroupByFields := [],
    UniqueFields := [], AggregationMethod := "sum", TimeWindow := 60000000000,
    Workers := 4 }

/-- The spec's §8 example records. -/
def recEx1 : Json :=
  Json.obj [("ts", Json.num ((1000 : Int) : ℚ)), ("val", Json.num ((10 : Int) : ℚ))]

def recEx2 : Json :=
  Json.obj [("ts", Json.num ((1010 : Int) : ℚ)), ("val", Json.num ((20 : Int) : ℚ))]

/-- Config with two group-by fields, used for the key-collision counterexample. -/
def cfgKey : Config :=
  { TimestampField := "ts", ValueFields := ["value"], GroupByFields := ["a", "b"],
    UniqueFields := [], AggregationMethod := "sum", TimeWindow := 60000000000,
    Workers := 4 }

/-- Record with `a = ";b:x"` and no `b` field. -/
def recKey1 : Json :=
  Json.obj [("ts", Json.num ((100 : Int) : ℚ)), ("a", Json.str (";b:x"))]

/-- Record with `a = ""` and `b = "x"`: a different presence tuple. -/
def recKey2 : Json :=
  Json.obj [("ts", Json.num ((100 : Int) : ℚ)), ("a", Json.str ("")),
    ("b", Json.str ("x"))]

/-- Config with one unique field, used for the unique-field witness. -/
def cfgUniq : Config :=
  { TimestampField := "ts", ValueFields := ["value"], GroupByFields := [],
    UniqueFields := ["u"], AggregationMethod := "sum", TimeWindow := 60000000000,
    Workers := 4 }

def recUniq1 : Json :=
  Json.obj [("ts", Json.num ((100 : Int) : ℚ)), ("u", Json.str ("x"))]

def recUniq2 : Json :=
  Json.obj [("ts", Json.num ((100 : Int) : ℚ)), ("u", Json.str ("y"))]

/-- A record with a negative (nonzero) timestamp. -/
def recNegTs : Json := Json.obj [("ts", Json.num ((-1000 : Int) : ℚ))]

/-- A record carrying a nonzero timestamp but none of the configured value fields. -/
def recNoVal : Json := Json.obj [("ts", Json.num ((100 : Int) : ℚ))]

/-- A record without the configured timestamp field. -/
def recNoTs : Json := Json.obj [("other", Json.num ((1 : Int) : ℚ))]

/-- Config whose group-by field shadows its sole value field name. -/
def cfgShadow : Config :=
  { TimestampField := "ts", ValueFields := ["v"], GroupByFields := ["v"],
    UniqueFields := [], AggregationMethod := "sum", TimeWindow := 60000000000,
    Workers := 4 }

def recShadow : Json :=
  Json.obj [("ts", Json.num ((100 : Int) : ℚ)), ("v", Json.num ((7 : Int) : ℚ))]

/-- Config whose timestamp field carries the fallback value name `"value"`
while two value fields are configured (so the emitted value name is also
`"value"`), with no group-by or unique fields at all. -/
def cfgTsShadow : Config :=
  { TimestampField := "value", ValueFields := ["a", "b"], GroupByFields := [],
    UniqueFields := [], AggregationMethod := "sum", TimeWindow := 60000000000,
    Workers := 4 }

/-- A record for `cfgTsShadow`: timestamp 100 under `"value"`, no `a`/`b`. -/
def recTsShadow : Json := Json.obj [("value", Json.num ((100 : Int) : ℚ))]

/-- The spec's §8 aggregation example value sequence. -/
def exValues : List ℚ := [5, 2, 8, 1]

/-! ### Helper lemmas about strings and the association-list maps -/

/-- Concatenation of a list of strings. -/
def joinAll : List String → String
  | [] => ""
  | s :: rest => s ++ joinAll rest

theorem string_eq_of_data {a b : String} (h : a.data = b.data) : a = b :=
  String.ext h

theorem joinAll_append (l1 l2 : List String) :
    joinAll (l1 ++ l2) = joinAll l1 ++ joinAll l2 := by
  induction l1 with
  | nil => simp [joinAll]
  | cons a t ih => simp [joinAll, ih, String.append_assoc]

theorem foldl_append_eq (g : String → String) (l : List String) (init : String) :
    l.foldl (fun acc f => acc ++ g f) init = init ++ joinAll (l.map g) := by
  induction l generalizing init with
  | nil => simp [joinAll]
  | cons a t ih => simp [joinAll, ih, String.append_assoc]

/-- The `+=` key-building loops written as one concatenation. -/
theorem groupKey_eq (cfg : Config) (w : Int) (v : Json) :
    groupKey cfg w v =
      ("window:" ++ toString w) ++
        (joinAll (cfg.GroupByFields.map (keySeg v (""))) ++
          joinAll (cfg.UniqueFields.map (keySeg v ("unique_")))) := by
  simp [groupKey, foldl_append_eq, String.append_assoc]

/-- A key segment only depends on the field's presence and string value. -/
theorem keySeg_congr {v1 v2 : Json} {f : String} (mark : String)
    (h : (Json.get v1 f).map Json.toKeyString = (Json.get v2 f).map Json.toKeyString) :
    keySeg v1 mark f = keySeg v2 mark f := by
  cases h1 : Json.get v1 f <;> cases h2 : Json.get v2 f <;>
    rw [h1, h2] at h <;> simp_all [keySeg]

theorem map_eq_pointwise {α β : Type} {g1 g2 : α → β} :
    ∀ {l : List α}, l.map g1 = l.map g2 → ∀ a ∈ l, g1 a = g2 a := by
  intro l
  induction l with
  | nil => intro _ a ha; cases ha
  | cons x t ih =>
    intro h a ha
    rw [List.map_cons, List.map_cons] at h
    have h1 := List.cons.inj h
    cases List.mem_cons.1 ha with
    | inl he => rw [he]; exact h1.1
    | inr ht => exact ih h1.2 a ht

/-- Equal field views give equal key-segment lists. -/
theorem map_keySeg_congr {v1 v2 : Json} (mark : String) (fs : List String)
    (h : fieldView v1 fs = fieldView v2 fs) :
    fs.map (keySeg v1 mark) = fs.map (keySeg v2 mark) :=
  List.map_congr_left (fun f hf => keySeg_congr mark (map_eq_pointwise h f hf))

theorem lookupGroup_append_new (k : String) (g : Group) :
    ∀ gs : List (String × Group), lookupGroup gs k = none →
      lookupGroup (gs ++ [(k, g)]) k = some g := by
  intro gs
  induction gs with
  | nil => intro _; simp [lookupGroup]
  | cons p t ih =>
    intro h
    by_cases hp : p.1 = k
    · simp [lookupGroup, hp] at h
    · simp [lookupGroup, hp] at h ⊢
      exact ih h

theorem lookupGroup_updateAt (k : String) (g' : Group) :
    ∀ (gs : List (String × Group)) (g : Group), lookupGroup gs k = some g →
      lookupGroup (updateAt gs k g') k = some g' := by
  intro gs
  induction gs with
  | nil => intro g h; simp [lookupGroup] at h
  | cons p t ih =>
    intro g h
    by_cases hp : p.1 = k
    · simp [lookupGroup, updateAt, hp]
    · simp only [lookupGroup, hp, if_false] at h
      simp only [updateAt, List.map_cons, if_neg hp]
      simp only [lookupGroup, hp, if_false]
      exact ih g h

theorem filterMap_get_none (v : Json) :
    ∀ fs : List String, (∀ f ∈ fs, Json.get v f = none) →
      fs.filterMap (fun f => (Json.get v f).map Json.toNum) = [] := by
  intro fs
  induction fs with
  | nil => intro _; rfl
  | cons a t ih =>
    intro h
    have ha := h a (List.mem_cons_self a t)
    rw [List.filterMap_cons, ha]
    exact ih (fun f hf => h f (List.mem_cons_of_mem a hf))

/-- Later writes under other keys do not change a key's final value. -/
theorem objLookup_append_notin (ws1 ws2 : List (String × Json)) (k : String)
    (h : ∀ p ∈ ws2, p.1 ≠ k) :
    objLookup (ws1 ++ ws2) k = objLookup ws1 k := by
  unfold objLookup
  rw [List.filter_append]
  have h2 : ws2.filter (fun p => p.1 = k) = [] := by
    rw [List.filter_eq_nil_iff]
    intro p hp
    simp [h p hp]
  rw [h2, List.append_nil]

theorem ratTrunc_intCast (n : Int) : ratTrunc ((n : Int) : ℚ) = n := by
  simp [ratTrunc, Int.tdiv_one]

/-! ### Claim-level theorems -/

/-- C4: for every aggregation method name, including unrecognized ones, the
aggregator applied to the empty value sequence returns exactly 0 and never
fails; the empty check precedes the method switch, so in particular no
division by zero occurs for `"avg"`. -/
theorem c4_aggregate_empty : ∀ method : String, aggregate method [] = 0 :=
  fun _ => rfl

/-- C5: on the sequence `[5, 2, 8, 1]` the aggregator returns sum 16, min 1,
max 8, count 4, first 5, last 1 and avg 4; and for every value sequence, a
method name outside the recognized eight aggregates exactly like `"sum"`. -/
theorem c5_aggregate_values (m : String)
    (hm : m ∉ (["sum", "avg", "mean", "min", "max", "count", "first", "last"] :
      List String)) :
    (∀ values, aggregate m values = aggregate ("sum") values) ∧
    aggregate ("sum") exValues = 16 ∧ aggregate ("min") exValues = 1 ∧
    aggregate ("max") exValues = 8 ∧ aggregate ("count") exValues = 4 ∧
    aggregate ("first") exValues = 5 ∧ aggregate ("last") exValues = 1 ∧
    aggregate ("avg") exValues = 4 := by
  simp only [List.mem_cons, not_or] at hm
  obtain ⟨h1, h2, h3, h4, h5, h6, h7, h8, -⟩ := hm
  refine ⟨?_, ?_, ?_, ?_, ?_, ?_, ?_, ?_⟩
  · intro values
    cases values with
    | nil => rfl
    | cons v0 rest => simp [aggregate, h1, h2, h3, h4, h5, h6, h7, h8]
  · simp [aggregate, sumGo, exValues] <;> norm_num
  · simp [aggregate, exValues] <;> norm_num
  · simp [aggregate, exValues] <;> norm_num
  · simp [aggregate, exValues] <;> norm_num
  · simp [aggregate, exValues] <;> norm_num
  · simp [aggregate, exValues, List.getLast] <;> norm_num
  · simp [aggregate, sumGo, exValues] <;> norm_num

/-- C5 witness: the unrecognized method `"median"` behaves like `"sum"` on the
example sequence. -/
theorem c5_witness :
    aggregate ("median") exValues = aggregate ("sum") exValues :=
  (c5_aggregate_values ("median") (by decide)).1 exValues

/-- C6: when the decoded top-level JSON value is not an array, `CompressJSON`
returns the input-format error and produces no output at all. -/
theorem c6_not_array (cfg : Config) (j : Json) (h : Json.isArray j = false) :
    compressJSON cfg j = Except.error ("expected JSON array") ∧
    ∀ out, compressJSON cfg j ≠ Except.ok out := by
  have he : compressJSON cfg j = Except.error ("expected JSON array") := by
    simp [compressJSON, h]
  exact ⟨he, fun out hout => by rw [he] at hout; cases hout⟩

/-- C6 witness: a top-level JSON object is rejected with the format error. -/
theorem c6_witness :
    compressJSON cfgPlain (Json.obj []) = Except.error ("expected JSON array") :=
  (c6_not_array cfgPlain (Json.obj []) rfl).1

/-- C7: an object whose configured timestamp field is absent, or present with
integer value exactly zero, is silently skipped: it leaves the group map
unchanged, and deleting it from the input array does not change the output,
so its value fields never reach any aggregate. -/
theorem c7_zero_ts_skipped (cfg : Config) (gs : List (String × Group)) (v : Json)
    (l1 l2 : List Json) (hobj : Json.isObject v = true)
    (h : Json.get v cfg.TimestampField = none ∨
      ∃ jv, Json.get v cfg.TimestampField = some jv ∧ Json.toInt jv = 0) :
    processRecord cfg gs v = gs ∧
    compressJSON cfg (Json.arr (l1 ++ v :: l2)) =
      compressJSON cfg (Json.arr (l1 ++ l2)) := by
  have hts : tsOf cfg v = 0 := by
    rcases h with h | ⟨jv, hj, hz⟩
    · simp [tsOf, h]
    · simp [tsOf, hj, hz]
  have hstep : ∀ gs' : List (String × Group), processRecord cfg gs' v = gs' := by
    intro gs'
    simp [processRecord, hts]
  refine ⟨hstep gs, ?_⟩
  simp [compressJSON, Json.isArray, Json.items, List.foldl_append, hstep]

/-- C7 witness: a record without the timestamp field is dropped from a batch
without affecting the result. -/
theorem c7_witness :
    compressJSON cfgPlain (Json.arr ([] ++ recNoTs :: [])) =
      compressJSON cfgPlain (Json.arr ([] ++ [])) :=
  (c7_zero_ts_skipped cfgPlain [] recNoTs [] [] rfl (Or.inl rfl)).2

/-- C8: `CompressBatch` returns an index-aligned result sequence of the input
batch's length; slot `i` holds the outcome of input `i` alone, an item's
failure surfaces as `none` at exactly its own index, and all other slots are
computed from their own inputs unaffected. -/
theorem c8_batch_alignment (cfg : Config) (bs bs1 bs2 : List Json) (x : Json) :
    (compressBatch cfg bs).length = bs.length ∧
    (∀ i : Nat, (compressBatch cfg bs)[i]? =
      (bs[i]?).map (fun b => (compressJSON cfg b).toOption)) ∧
    compressBatch cfg (bs1 ++ x :: bs2) =
      compressBatch cfg bs1 ++
        ((compressJSON cfg x).toOption :: compressBatch cfg bs2) ∧
    (∀ e, compressJSON cfg x = Except.error e →
      (compressBatch cfg (bs1 ++ x :: bs2))[bs1.length]? = some none) := by
  refine ⟨by simp [compressBatch], fun i => by simp [compressBatch],
    by simp [compressBatch], ?_⟩
  intro e he
  have hsplit : compressBatch cfg (bs1 ++ x :: bs2) =
      compressBatch cfg bs1 ++
        ((compressJSON cfg x).toOption :: compressBatch cfg bs2) := by
    simp [compressBatch]
  have hlen : (compressBatch cfg bs1).length = bs1.length := by
    simp [compressBatch]
  rw [hsplit, List.getElem?_append_right (le_of_eq hlen), hlen, Nat.sub_self]
  simp [he, Except.toOption]

/-- C8 witness: a single non-array item produces the one-slot result `none`. -/
theorem c8_witness :
    (compressBatch cfgPlain ([] ++ Json.num 1 :: []))[List.length ([] : List Json)]? =
      some none :=
  (c8_batch_alignment cfgPlain [] [] [] (Json.num 1)).2.2.2
    ("expected JSON array") rfl

/-- C9: `NewCompressor` replaces exactly the zero-valued config fields with
their documented defaults (`"timestamp"`, `["value"]`, `"sum"`, one minute,
4 workers for any count ≤ 0), leaves the other fields untouched, resolves the
all-zero config to `DefaultConfig()`, is idempotent, and leaves a
fully-populated config unchanged. -/
theorem c9_resolve_defaults (c : Config) :
    (resolveConfig c).TimestampField =
      (if c.TimestampField = "" then "timestamp" else c.TimestampField) ∧
    (resolveConfig c).ValueFields =
      (if c.ValueFields = [] then ["value"] else c.ValueFields) ∧
    (resolveConfig c).GroupByFields = c.GroupByFields ∧
    (resolveConfig c).UniqueFields = c.UniqueFields ∧
    (resolveConfig c).AggregationMethod =
      (if c.AggregationMethod = "" then "sum" else c.AggregationMethod) ∧
    (resolveConfig c).TimeWindow =
      (if c.TimeWindow = 0 then 60000000000 else c.TimeWindow) ∧
    (resolveConfig c).Workers = (if c.Workers ≤ 0 then 4 else c.Workers) ∧
    resolveConfig (resolveConfig c) = resolveConfig c ∧
    resolveConfig ⟨"", [], [], [], "", 0, 0⟩ = defaultConfig ∧
    (c.TimestampField ≠ "" → c.ValueFields ≠ [] → c.AggregationMethod ≠ "" →
      c.TimeWindow ≠ 0 → 0 < c.Workers → resolveConfig c = c) := by
  refine ⟨rfl, rfl, rfl, rfl, rfl, rfl, rfl, ?_, rfl, ?_⟩
  · simp only [resolveConfig]
    split_ifs <;> simp_all
  · intro h1 h2 h3 h4 h5
    have h5' : ¬ c.Workers ≤ 0 := not_le.mpr h5
    simp [resolveConfig, h1, h2, h3, h4, h5']

/-- C9 witness: resolving an already fully-populated config is the identity. -/
theorem c9_witness : resolveConfig cfgExample = cfgExample :=
  (c9_resolve_defaults cfgExample).2.2.2.2.2.2.2.2.2
    (by decide) (by decide) (by decide) (by decide) (by decide)

/-- C2 counterexample: with a 60-second window the record timestamp −1000 is
placed at window boundary −960 (Go's truncating division), not at the floor
value ⌊−1000/60⌋·60 = −1020 that the claim prescribes. -/
theorem c2_counterexample :
    (processRecord cfgPlain [] recNegTs).map (fun p => p.2.Window) = [-960] ∧
    Int.fdiv (-1000) 60 * 60 = -1020 ∧ ((-960 : Int) ≠ -1020) :=
  ⟨rfl, rfl, by decide⟩

/-- C2 amended: the window boundary is `(t tdiv w) · w` with Go's truncating
(toward-zero) division, where `w` is the window in whole seconds with the
documented fallback to 60 when it resolves to zero; for nonnegative
timestamps and a positive `w` this agrees with the claimed floor formula, and
the group created for a record stores exactly this boundary. -/
theorem c2_window_truncating (cfg : Config) (t : Int) (ht : t ≠ 0) :
    windowOf cfg t =
      Int.tdiv t (if Int.tdiv cfg.TimeWindow 1000000000 = 0 then 60
        else Int.tdiv cfg.TimeWindow 1000000000) *
      (if Int.tdiv cfg.TimeWindow 1000000000 = 0 then 60
        else Int.tdiv cfg.TimeWindow 1000000000) ∧
    (0 ≤ t → 0 < windowSecOf cfg →
      windowOf cfg t = Int.fdiv t (windowSecOf cfg) * windowSecOf cfg) ∧
    (∀ v : Json, Json.isObject v = true → tsOf cfg v = t →
      (processRecord cfg [] v).map (fun p => p.2.Window) = [windowOf cfg t]) := by
  refine ⟨rfl, ?_, ?_⟩
  · intro ht0 hw
    unfold windowOf
    rw [Int.fdiv_eq_tdiv ht0 (le_of_lt hw)]
  · intro v hobj htv
    simp [processRecord, htv, ht, hobj, lookupGroup, updateGroup, newGroup]

/-- C2 witness: a record at timestamp 100 is stored with its computed window
boundary. -/
theorem c2_witness :
    (processRecord cfgPlain [] recNoVal).map (fun p => p.2.Window) =
      [windowOf cfgPlain 100] :=
  (c2_window_truncating cfgPlain 100 (by decide)).2.2 recNoVal rfl rfl

/-- C10: a record with a nonzero timestamp on which none of the configured
value fields is present still creates or joins its group — appending no
values and incrementing the count — and `CompressJSON` can therefore emit an
output record whose aggregate is 0 although no value was ever contributed. -/
theorem c10_empty_group_emission (cfg : Config) (gs : List (String × Group))
    (v : Json) (hobj : Json.isObject v = true) (hts : tsOf cfg v ≠ 0)
    (hvals : ∀ f ∈ cfg.ValueFields, Json.get v f = none) :
    (∃ g', lookupGroup (processRecord cfg gs v)
        (groupKey cfg (windowOf cfg (tsOf cfg v)) v) = some g' ∧
      g'.Values =
        (match lookupGroup gs (groupKey cfg (windowOf cfg (tsOf cfg v)) v) with
         | some g => g.Values
         | none => []) ∧
      g'.Count =
        (match lookupGroup gs (groupKey cfg (windowOf cfg (tsOf cfg v)) v) with
         | some g => g.Count
         | none => 0) + 1) ∧
    compressJSON cfgPlain (Json.arr [recNoVal]) =
      Except.ok [[("ts", Json.num ((100 : Int) : ℚ)), ("value", Json.num 0)]] := by
  constructor
  · have hfm : (cfg.ValueFields).filterMap
        (fun f => (Json.get v f).map Json.toNum) = [] :=
      filterMap_get_none v cfg.ValueFields hvals
    have hpr : processRecord cfg gs v =
        (match lookupGroup gs (groupKey cfg (windowOf cfg (tsOf cfg v)) v) with
         | some g => updateAt gs (groupKey cfg (windowOf cfg (tsOf cfg v)) v)
             (updateGroup cfg (tsOf cfg v) v g)
         | none => gs ++ [(groupKey cfg (windowOf cfg (tsOf cfg v)) v,
             updateGroup cfg (tsOf cfg v) v
               (newGroup cfg (windowOf cfg (tsOf cfg v)) (tsOf cfg v) v))]) := by
      simp [processRecord, hobj, hts]
    cases hl : lookupGroup gs (groupKey cfg (windowOf cfg (tsOf cfg v)) v) with
    | none =>
      rw [hl] at hpr
      refine ⟨updateGroup cfg (tsOf cfg v) v
        (newGroup cfg (windowOf cfg (tsOf cfg v)) (tsOf cfg v) v), ?_, ?_, ?_⟩
      · rw [hpr]
        exact lookupGroup_append_new _ _ gs hl
      · simp [updateGroup, newGroup, hfm]
      · simp [updateGroup, newGroup]
    | some g =>
      rw [hl] at hpr
      refine ⟨updateGroup cfg (tsOf cfg v) v g, ?_, ?_, ?_⟩
      · rw [hpr]
        exact lookupGroup_updateAt _ _ gs g hl
      · simp [updateGroup, hfm]
      · simp [updateGroup]
  · rfl

/-- C10 witness: one record with a timestamp and no value field yields one
output record with aggregate 0. -/
theorem c10_witness :
    compressJSON cfgPlain (Json.arr [recNoVal]) =
      Except.ok [[("ts", Json.num ((100 : Int) : ℚ)), ("value", Json.num 0)]] :=
  (c10_empty_group_emission cfgPlain [] recNoVal rfl (by decide)
    (fun f hf => by
      simp only [cfgPlain, List.mem_singleton] at hf
      rw [hf]
      exact rfl)).2

/-- C3 counterexample: the output object is a Go map written in the order
timestamp, aggregate, tags, so later same-named writes overwrite earlier
ones, and the claim fails in two ways.  (1) When a group-by field shares the
sole value field's name, the tag write overwrites the emitted aggregate: with
config `cfgShadow` the record `{"ts":100,"v":7}` aggregates to 7, yet the
final output object's `"v"` entry is the tag string `"7"`, not the numeric
aggregate.  (2) With no tags involved at all, when the timestamp field name
equals the emitted value name — config `cfgTsShadow` has timestamp field
`"value"` and two value fields, so the aggregate is also emitted under
`"value"` — the aggregate write overwrites the timestamp write: the record
`{"value":100}` is emitted with `"value"` holding the aggregate 0, and its
timestamp 100 appears nowhere. -/
theorem c3_counterexample :
    (compressJSON cfgShadow (Json.arr [recShadow])).map
      (fun l => l.map (fun ws => objLookup ws ("v"))) =
      Except.ok [some (Json.str ("7"))] ∧
    aggregate (cfgShadow.AggregationMethod) [((7 : Int) : ℚ)] = ((7 : Int) : ℚ) ∧
    Json.str ("7") ≠ Json.num ((7 : Int) : ℚ) ∧
    emittedValueName cfgTsShadow = cfgTsShadow.TimestampField ∧
    (compressJSON cfgTsShadow (Json.arr [recTsShadow])).map
      (fun l => l.map (fun ws => objLookup ws ("value"))) =
      Except.ok [some (Json.num 0)] ∧
    Json.num 0 ≠ Json.num ((100 : Int) : ℚ) := by
  refine ⟨rfl, ?_, fun h => Json.noConfusion h, rfl, rfl, fun h => ?_⟩
  · simp [aggregate, sumGo, cfgShadow]
  · rw [Json.num.injEq] at h
    norm_num at h

/-- C3 amended: the emitted timestamp follows the method switch (first-seen
for `"first"`, last-seen for `"last"`, truncating integer average otherwise)
and the aggregate is written under the sole configured value-field name when
exactly one is configured (else under `"value"`), provided the timestamp
field name differs from the emitted value-field name and no captured tag
carries either of those two names — the output object is written in the
order timestamp, aggregate, tags, and a later same-named write overwrites
the entry, as both counterexample scenarios show.  The spec's example holds:
`[{ts 1000, val 10}, {ts 1010, val 20}]` with a 60 s window and method `sum`
yields exactly `[{ts 1005, val 30}]`. -/
theorem c3_emission (cfg : Config) (g : Group)
    (hnm : cfg.TimestampField ≠ emittedValueName cfg)
    (htags : ∀ p ∈ g.Tags, p.1 ≠ cfg.TimestampField ∧ p.1 ≠ emittedValueName cfg) :
    objLookup (buildObj cfg g) cfg.TimestampField =
      some (Json.num ((if cfg.AggregationMethod = "first" then g.FirstTime
        else if cfg.AggregationMethod = "last" then g.LastTime
        else Int.tdiv (g.FirstTime + g.LastTime) 2 : Int) : ℚ)) ∧
    objLookup (buildObj cfg g) (emittedValueName cfg) =
      some (Json.num (aggregate cfg.AggregationMethod g.Values)) ∧
    (∀ f, cfg.ValueFields = [f] → emittedValueName cfg = f) ∧
    (cfg.ValueFields.length ≠ 1 → emittedValueName cfg = "value") ∧
    compressJSON cfgExample (Json.arr [recEx1, recEx2]) =
      Except.ok [[("ts", Json.num ((1005 : Int) : ℚ)),
        ("val", Json.num ((30 : Int) : ℚ))]] := by
  have htw : ∀ p ∈ g.Tags.map (fun p => (p.1, Json.str p.2)),
      p.1 ≠ cfg.TimestampField := by
    intro p hp
    obtain ⟨q, hq, rfl⟩ := List.mem_map.1 hp
    exact (htags q hq).1
  have hvw : ∀ p ∈ g.Tags.map (fun p => (p.1, Json.str p.2)),
      p.1 ≠ emittedValueName cfg := by
    intro p hp
    obtain ⟨q, hq, rfl⟩ := List.mem_map.1 hp
    exact (htags q hq).2
  refine ⟨?_, ?_, ?_, ?_, ?_⟩
  · unfold buildObj
    rw [objLookup_append_notin _ _ _ htw]
    simp [objLookup, List.filter, Ne.symm hnm, emittedTimestamp]
  · unfold buildObj
    rw [objLookup_append_notin _ _ _ hvw]
    simp [objLookup, List.filter, hnm]
  · intro f hf
    simp [emittedValueName, hf]
  · intro hlen
    cases hcase : cfg.ValueFields with
    | nil => simp [emittedValueName, hcase]
    | cons a t =>
      cases t with
      | nil => exact absurd (by rw [hcase]; rfl) hlen
      | cons b t2 => simp [emittedValueName, hcase]
  · have d1 : Int.tdiv (60000000000 : Int) 1000000000 = 60 := rfl
    have d2 : Int.tdiv (1000 : Int) 60 = 16 := rfl
    have d3 : Int.tdiv (1010 : Int) 60 = 16 := rfl
    have d4 : toString (960 : Int) = "960" := rfl
    have d5 : Int.tdiv (2010 : Int) 2 = 1005 := rfl
    simp [compressJSON, Json.items, Json.isArray, processRecord, tsOf, Json.get,
      lookupField, Json.toInt, ratTrunc_intCast, ratTrunc, windowOf, windowSecOf,
      groupKey, keySeg, Json.toKeyString, ratRender, lookupGroup, updateAt,
      updateGroup, newGroup, captureTags, insertTag, Json.isObject, buildObj,
      emittedTimestamp, emittedValueName, aggregate, sumGo, Json.toNum,
      cfgExample, recEx1, recEx2, d1, d2, d3, d4, d5] <;> norm_num

/-- The group the spec example accumulates, used to witness the emission rule. -/
def grpEx : Group :=
  { Window := 960, Tags := [], Values := [((10 : Int) : ℚ), ((20 : Int) : ℚ)],
    Count := 2, FirstTime := 1000, LastTime := 1010 }

/-- C3 witness: the example group is emitted with timestamp 1005 under `ts`. -/
theorem c3_witness :
    objLookup (buildObj cfgExample grpEx) ("ts") =
      some (Json.num ((1005 : Int) : ℚ)) := by
  have d5 : Int.tdiv (2010 : Int) 2 = 1005 := rfl
  have h := (c3_emission cfgExample grpEx (by decide)
    (fun p hp => absurd hp (by simp [grpEx]))).1
  simpa [cfgExample, grpEx, d5] using h

/-- C1 counterexample: under config `cfgKey` (group-by fields `a`, `b`) the
records `{"ts":100,"a":";b:x"}` and `{"ts":100,"a":"","b":"x"}` have
different presence tuples, yet their delimiter-joined keys coincide and one
`CompressJSON` pass merges them into a single group. -/
theorem c1_counterexample :
    groupTuple cfgKey 60 recKey1 ≠ groupTuple cfgKey 60 recKey2 ∧
    groupKey cfgKey 60 recKey1 = groupKey cfgKey 60 recKey2 ∧
    (compressJSON cfgKey (Json.arr [recKey1, recKey2])).map List.length =
      Except.ok 1 :=
  ⟨by decide, rfl, rfl⟩

/-- C1 amended: records whose window boundary and presence-and-value tuples
for group-by and unique fields all match always receive the same group key,
and changing one unique-field string value with all else equal forces a
different key; but the converse of the first part can fail (see the
counterexample), because the key is a delimiter-joined string and field
values containing the delimiters can make different tuples collide. -/
theorem c1_key_characterization (cfg : Config) (w1 w2 : Int) (v1 v2 : Json)
    (us1 us2 : List String) (f0 s1 s2 : String) :
    (groupTuple cfg w1 v1 = groupTuple cfg w2 v2 →
      groupKey cfg w1 v1 = groupKey cfg w2 v2) ∧
    (cfg.UniqueFields = us1 ++ f0 :: us2 → w1 = w2 →
      fieldView v1 cfg.GroupByFields = fieldView v2 cfg.GroupByFields →
      fieldView v1 us1 = fieldView v2 us1 →
      fieldView v1 us2 = fieldView v2 us2 →
      (Json.get v1 f0).map Json.toKeyString = some s1 →
      (Json.get v2 f0).map Json.toKeyString = some s2 →
      s1 ≠ s2 →
      groupKey cfg w1 v1 ≠ groupKey cfg w2 v2) := by
  constructor
  · intro h
    simp only [groupTuple, Prod.mk.injEq] at h
    obtain ⟨hw, hgb, hun⟩ := h
    rw [groupKey_eq, groupKey_eq, hw,
      map_keySeg_congr ("") cfg.GroupByFields hgb,
      map_keySeg_congr ("unique_") cfg.UniqueFields hun]
  · intro hus hw hgb hpre hpost hg1 hg2 hne hkey
    have hseg1 : keySeg v1 ("unique_") f0 =
        ";" ++ "unique_" ++ f0 ++ ":" ++ s1 := by
      cases hg : Json.get v1 f0 with
      | none => rw [hg] at hg1; simp at hg1
      | some jv =>
        rw [hg] at hg1
        have hjs : Json.toKeyString jv = s1 := by
          simpa using hg1
        simp [keySeg, hg, hjs]
    have hseg2 : keySeg v2 ("unique_") f0 =
        ";" ++ "unique_" ++ f0 ++ ":" ++ s2 := by
      cases hg : Json.get v2 f0 with
      | none => rw [hg] at hg2; simp at hg2
      | some jv =>
        rw [hg] at hg2
        have hjs : Json.toKeyString jv = s2 := by
          simpa using hg2
        simp [keySeg, hg, hjs]
    rw [groupKey_eq, groupKey_eq, hw,
      map_keySeg_congr ("") cfg.GroupByFields hgb, hus] at hkey
    simp only [List.map_append, List.map_cons, joinAll_append, joinAll] at hkey
    rw [map_keySeg_congr ("unique_") us1 hpre,
      map_keySeg_congr ("unique_") us2 hpost, hseg1, hseg2] at hkey
    have hd := congrArg String.data hkey
    simp only [String.data_append, List.append_assoc] at hd
    have e1 := List.append_cancel_left hd
    have e2 := List.append_cancel_left e1
    have e3 := List.append_cancel_left e2
    have e4 := List.append_cancel_left e3
    have e5 := List.append_cancel_left e4
    have e6 := List.append_cancel_left e5
    have e7 := List.append_cancel_left e6
    have e8 := List.append_cancel_left e7
    exact hne (string_eq_of_data (List.append_cancel_right e8))

/-- C1 witness: with one unique field `u`, changing its value from `"x"` to
`"y"` with all else equal forces a different group key. -/
theorem c1_witness :
    groupKey cfgUniq 60 recUniq1 ≠ groupKey cfgUniq 60 recUniq2 :=
  (c1_key_characterization cfgUniq 60 60 recUniq1 recUniq2 [] [] ("u")
    ("x") ("y")).2 rfl rfl rfl rfl rfl rfl rfl (by decide)

end TSC
